import Mathlib

/-!
Fusion nodes of the operator-fusion pass (paddle/cinn/operator_fusion/pattern_node.h)

A shallow embedding of the struct template `PatternNode<T>`: its two
constructors and `DebugStr`, followed by the properties of the node
contract.

Conventions of the embedding

* Raw pointers and shared pointers are addresses (natural numbers).
* `StmtPattern<T>` is a type parameter `P`; `ConvertToStmtPattern`,
  `MergePattern` and `GetPatternName` are declared in headers that are not
  part of the sources at hand, so they are parameters of the definitions
  that call them.  A C++ exception leaving one of them is an `Except.error`.
* The members `upstream_` and `downstream_` have no initializer in either
  constructor, so they are default-constructed (empty vectors).
-/

namespace cinn.fusion

/-- Address of a `pir::Operation` (the node keeps a raw, non-owning pointer). -/
abbrev OpPtr := Nat

/-- Address held by a `PatternNodePtr`, that is `std::shared_ptr<PatternNode<T>>`. -/
abbrev NodePtr := Nat

/-- Modelled from the spec: the declaration of `PatternContent<T>` is in pattern.h,
which is not among the sources.  The leaf constructor reads one member of it,
`content.op`, the original operation; `rest` stands for whatever else the
content of stage `T` carries and is only ever seen by `ConvertToStmtPattern`. -/
structure PatternContent (X : Type) where
  op : OpPtr
  rest : X
deriving DecidableEq

/-- The struct `PatternNode<T>` (pattern_node.h, lines 24 to 55): the four data
members, in declaration order `stmt_pattern_`, `sink_op_`, `upstream_`,
`downstream_`. -/
structure PatternNode (P : Type) where
  stmt_pattern_ : P
  sink_op_ : OpPtr
  upstream_ : List NodePtr
  downstream_ : List NodePtr
deriving DecidableEq

section Constructors

variable {X P E : Type}

/-- The leaf constructor `PatternNode(const PatternContent<T>& content)`
(lines 27 and 28).  Members are initialised in declaration order:
`stmt_pattern_` from `ConvertToStmtPattern<T>(content)`, whose exception, if
any, leaves the constructor; then `sink_op_` from `content.op`; the two edge
vectors are default-constructed. -/
def PatternNode.ofContent (ConvertToStmtPattern : PatternContent X → Except E P)
    (content : PatternContent X) : Except E (PatternNode P) :=
  match ConvertToStmtPattern content with
  | .error e => .error e
  | .ok p =>
    .ok { stmt_pattern_ := p, sink_op_ := content.op, upstream_ := [], downstream_ := [] }

/-- The merge constructor `PatternNode(PatternNodePtr fused_up_node,
PatternNodePtr fused_down_node)` (lines 30 to 34), as a function of the two
nodes that the shared pointers point to.  `stmt_pattern_` is
`MergePattern<T>(fused_up_node->stmt_pattern_, fused_down_node->stmt_pattern_)`,
whose exception, if any, leaves the constructor; `sink_op_` is
`fused_down_node->sink_op_`; the two edge vectors are default-constructed. -/
def PatternNode.ofNodes (MergePattern : P → P → Except E P)
    (fused_up_node fused_down_node : PatternNode P) : Except E (PatternNode P) :=
  match MergePattern fused_up_node.stmt_pattern_ fused_down_node.stmt_pattern_ with
  | .error e => .error e
  | .ok p =>
    .ok { stmt_pattern_ := p, sink_op_ := fused_down_node.sink_op_,
          upstream_ := [], downstream_ := [] }

/-- The live nodes of a fusion graph: which node sits at which address. -/
abbrev Memory (P : Type) := List (NodePtr × PatternNode P)

/-- Dereference `ptr->`: the node at the address, if there is one. -/
def Memory.deref (m : Memory P) (ptr : NodePtr) : Option (PatternNode P) :=
  m.lookup ptr

/-- Evaluation of the expression `PatternNode<T>(fused_up_node, fused_down_node)`
in a memory: the outcome of the constructor together with the memory after
the attempt.  The constructor takes its two shared pointers by value and only
reads through them, so no existing node is written.  The result is `none`
when one of the pointers does not point to a node (dereferencing it is
undefined behaviour). -/
def PatternNode.construct (MergePattern : P → P → Except E P) (m : Memory P)
    (fused_up_node fused_down_node : NodePtr) :
    Option (Except E (PatternNode P) × Memory P) :=
  match m.deref fused_up_node, m.deref fused_down_node with
  | some up, some down => some (PatternNode.ofNodes MergePattern up down, m)
  | _, _ => none

end Constructors

section Debug

variable {P : Type}

/-- The method `DebugStr` (lines 36 to 48).  The string stream is the text
accumulated so far; `showPtr` is the formatting of an address by `operator<<`
(used for `this` and, through `shared_ptr`, for every neighbour); `self` is
the address `this`. -/
def PatternNode.DebugStr (GetPatternName : P → String) (showPtr : NodePtr → String)
    (self : NodePtr) (node : PatternNode P) : String :=
  let ss := ""
  let ss := ss ++ "Node: " ++ showPtr self ++ ", Pattern: "
    ++ GetPatternName node.stmt_pattern_ ++ "\n    -u>:  "
  let ss := node.upstream_.foldl (fun ss u => ss ++ showPtr u ++ ", ") ss
  let ss := ss ++ "\n    <d-:  "
  let ss := node.downstream_.foldl (fun ss d => ss ++ showPtr d ++ ", ") ss
  ss

/-- The tokens in list order, each followed by ", ". -/
def tokenList : List String → String
  | [] => ""
  | t :: ts => t ++ ", " ++ tokenList ts

/-- The debug text as the specification words it: the header
"Node: id, Pattern: name", then a line "    -u>:  " with every upstream
token followed by ", ", then a line "    <d-:  " with every downstream token
followed by ", ". -/
def debugText (id name : String) (upstreamTokens downstreamTokens : List String) : String :=
  "Node: " ++ id ++ ", Pattern: " ++ name
    ++ "\n    -u>:  " ++ tokenList upstreamTokens
    ++ "\n    <d-:  " ++ tokenList downstreamTokens

end Debug

section Chain

variable {X P E : Type}

/-- One leaf node per content, in order; the first classification failure, if
any, is the result. -/
def buildLeaves (ConvertToStmtPattern : PatternContent X → Except E P) :
    List (PatternContent X) → Except E (List (PatternNode P))
  | [] => .ok []
  | c :: cs =>
    match PatternNode.ofContent ConvertToStmtPattern c with
    | .error e => .error e
    | .ok n =>
      match buildLeaves ConvertToStmtPattern cs with
      | .error e => .error e
      | .ok ns => .ok (n :: ns)

/-- Merging left to right: the node built so far is the upstream argument of
the merge constructor and the next node of the chain the downstream one. -/
def mergeLeftToRight (MergePattern : P → P → Except E P) :
    PatternNode P → List (PatternNode P) → Except E (PatternNode P)
  | acc, [] => .ok acc
  | acc, n :: ns =>
    match PatternNode.ofNodes MergePattern acc n with
    | .error e => .error e
    | .ok merged => mergeLeftToRight MergePattern merged ns

/-- The chain scenario: leaf nodes for `first :: others`, then all of them
merged left to right. -/
def fuseChain (ConvertToStmtPattern : PatternContent X → Except E P)
    (MergePattern : P → P → Except E P)
    (first : PatternContent X) (others : List (PatternContent X)) :
    Except E (PatternNode P) :=
  match PatternNode.ofContent ConvertToStmtPattern first with
  | .error e => .error e
  | .ok n =>
    match buildLeaves ConvertToStmtPattern others with
    | .error e => .error e
    | .ok ns => mergeLeftToRight MergePattern n ns

/-- The left fold of combine over a pattern and the patterns after it:
`combine (... (combine (combine p p1) p2) ...) pn`, failing as soon as one
combine fails. -/
def combineLeft (MergePattern : P → P → Except E P) : P → List P → Except E P
  | acc, [] => .ok acc
  | acc, p :: ps =>
    match MergePattern acc p with
    | .error e => .error e
    | .ok q => combineLeft MergePattern q ps

end Chain

/-! ## A small pattern algebra on which the statements are exercised -/

namespace Sample

/-- Sample classification: a content is accepted when its flag is set and is
then a pattern of one operation; otherwise classification fails with code 0. -/
def classify (content : PatternContent Bool) : Except Nat Nat :=
  if content.rest then .ok 1 else .error 0

/-- Sample combination: patterns are sizes; two patterns combine into their
sum unless the sum exceeds 3, which is a conflict with code 1. -/
def combine (a b : Nat) : Except Nat Nat :=
  if a + b ≤ 3 then .ok (a + b) else .error 1

/-- Operation A at address 10, accepted by the sample classification. -/
def opA : PatternContent Bool := { op := 10, rest := true }

/-- Operation B at address 20, accepted by the sample classification. -/
def opB : PatternContent Bool := { op := 20, rest := true }

/-- Operation C at address 30, accepted by the sample classification. -/
def opC : PatternContent Bool := { op := 30, rest := true }

/-- Sample pattern names. -/
def patternName (p : Nat) : String :=
  if p = 1 then "Trivial" else "Fused"

/-- Sample address formatting: the decimal digits after "0x". -/
def showPtr (a : NodePtr) : String :=
  "0x" ++ toString a

/-- An operation at address 40 that the sample classification rejects. -/
def opBad : PatternContent Bool := { op := 40, rest := false }

/-- Node of A, linked to the node of B at address 2. -/
def nodeA : PatternNode Nat :=
  { stmt_pattern_ := 1, sink_op_ := 10, upstream_ := [], downstream_ := [2] }

/-- Node of B, between the node of A at address 1 and the node of C at address 3. -/
def nodeB : PatternNode Nat :=
  { stmt_pattern_ := 1, sink_op_ := 20, upstream_ := [1], downstream_ := [3] }

/-- Node of C, linked to the node of B at address 2. -/
def nodeC : PatternNode Nat :=
  { stmt_pattern_ := 1, sink_op_ := 30, upstream_ := [2], downstream_ := [] }

/-- A node of size 3 with no neighbours: combining it with anything conflicts. -/
def nodeBig : PatternNode Nat :=
  { stmt_pattern_ := 3, sink_op_ := 50, upstream_ := [], downstream_ := [] }

/-- The node of B with another sink operation. -/
def nodeWithOtherSink : PatternNode Nat :=
  { stmt_pattern_ := 1, sink_op_ := 99, upstream_ := [1], downstream_ := [3] }

/-- The chain A, B, C at addresses 1, 2, 3 and the isolated big node at 4. -/
def memory : Memory Nat := [(1, nodeA), (2, nodeB), (3, nodeC), (4, nodeBig)]

end Sample

/-! ## Basic facts about the two constructors -/

section Lemmas

variable {X P E : Type}

theorem ofContent_of_ok (ConvertToStmtPattern : PatternContent X → Except E P)
    (content : PatternContent X) (p : P) (h : ConvertToStmtPattern content = .ok p) :
    PatternNode.ofContent ConvertToStmtPattern content
      = .ok { stmt_pattern_ := p, sink_op_ := content.op,
              upstream_ := [], downstream_ := [] } := by
  simp [PatternNode.ofContent, h]

theorem ofContent_of_error (ConvertToStmtPattern : PatternContent X → Except E P)
    (content : PatternContent X) (e : E) (h : ConvertToStmtPattern content = .error e) :
    PatternNode.ofContent ConvertToStmtPattern content = (.error e : Except E (PatternNode P)) := by
  simp [PatternNode.ofContent, h]

theorem ofNodes_of_ok (MergePattern : P → P → Except E P) (U D : PatternNode P) (p : P)
    (h : MergePattern U.stmt_pattern_ D.stmt_pattern_ = .ok p) :
    PatternNode.ofNodes MergePattern U D
      = .ok { stmt_pattern_ := p, sink_op_ := D.sink_op_,
              upstream_ := [], downstream_ := [] } := by
  simp [PatternNode.ofNodes, h]

theorem ofNodes_of_error (MergePattern : P → P → Except E P) (U D : PatternNode P) (e : E)
    (h : MergePattern U.stmt_pattern_ D.stmt_pattern_ = .error e) :
    PatternNode.ofNodes MergePattern U D = .error e := by
  simp [PatternNode.ofNodes, h]

theorem construct_of_deref (MergePattern : P → P → Except E P) (m : Memory P)
    (up down : NodePtr) (U D : PatternNode P)
    (hU : m.deref up = some U) (hD : m.deref down = some D) :
    PatternNode.construct MergePattern m up down
      = some (PatternNode.ofNodes MergePattern U D, m) := by
  simp [PatternNode.construct, hU, hD]

theorem foldl_append_tokens (f : NodePtr → String) (l : List NodePtr) (init : String) :
    l.foldl (fun ss u => ss ++ f u ++ ", ") init = init ++ tokenList (l.map f) := by
  induction l generalizing init with
  | nil => simp [tokenList]
  | cons a l ih =>
    simp only [List.foldl_cons, List.map_cons, tokenList]
    rw [ih, String.append_assoc, String.append_assoc, String.append_assoc]

theorem getLast_sink_congr (a b : PatternNode P) (l : List (PatternNode P))
    (h : a.sink_op_ = b.sink_op_) :
    ((a :: l).getLast (List.cons_ne_nil a l)).sink_op_
      = ((b :: l).getLast (List.cons_ne_nil b l)).sink_op_ := by
  cases l with
  | nil => simpa using h
  | cons c l => simp

theorem mergeLeftToRight_of_ok (MergePattern : P → P → Except E P) :
    ∀ (ns : List (PatternNode P)) (acc : PatternNode P) (q : P),
      combineLeft MergePattern acc.stmt_pattern_ (ns.map PatternNode.stmt_pattern_) = .ok q →
      ∃ M : PatternNode P, mergeLeftToRight MergePattern acc ns = .ok M ∧
        M.stmt_pattern_ = q ∧
        M.sink_op_ = ((acc :: ns).getLast (List.cons_ne_nil acc ns)).sink_op_ := by
  intro ns
  induction ns with
  | nil =>
    intro acc q h
    simp only [List.map_nil, combineLeft, Except.ok.injEq] at h
    exact ⟨acc, rfl, h, by simp⟩
  | cons n ns ih =>
    intro acc q h
    simp only [List.map_cons, combineLeft] at h
    cases hc : MergePattern acc.stmt_pattern_ n.stmt_pattern_ with
    | error e => simp [hc] at h
    | ok r =>
      simp only [hc] at h
      obtain ⟨M, hM, hp, hs⟩ :=
        ih { stmt_pattern_ := r, sink_op_ := n.sink_op_, upstream_ := [], downstream_ := [] } q h
      refine ⟨M, ?_, hp, ?_⟩
      · simp only [mergeLeftToRight, ofNodes_of_ok MergePattern acc n r hc]
        exact hM
      · rw [hs, List.getLast_cons (List.cons_ne_nil n ns)]
        exact getLast_sink_congr _ n ns rfl

theorem buildLeaves_of_ok (ConvertToStmtPattern : PatternContent X → Except E P) :
    ∀ (cs : List (PatternContent X)) (ps : List P),
      List.Forall₂ (fun c p => ConvertToStmtPattern c = .ok p) cs ps →
      ∃ ns : List (PatternNode P), buildLeaves ConvertToStmtPattern cs = .ok ns ∧
        ns.map PatternNode.stmt_pattern_ = ps ∧
        ns.map PatternNode.sink_op_ = cs.map PatternContent.op := by
  intro cs ps h
  induction h with
  | nil => exact ⟨[], rfl, rfl, rfl⟩
  | @cons c p cs ps hc _ ih =>
    obtain ⟨ns, hns, hp, hs⟩ := ih
    refine ⟨{ stmt_pattern_ := p, sink_op_ := c.op, upstream_ := [], downstream_ := [] } :: ns,
      ?_, ?_, ?_⟩
    · simp only [buildLeaves, ofContent_of_ok ConvertToStmtPattern c p hc, hns]
    · simp [hp]
    · simp [hs]

theorem getLast_map_cons {α β : Type} (g : β → Nat) (k : α → Nat) :
    ∀ (l : List α) (l2 : List β) (a : α) (b : β), g b = k a → l2.map g = l.map k →
      g ((b :: l2).getLast (List.cons_ne_nil b l2))
        = k ((a :: l).getLast (List.cons_ne_nil a l)) := by
  intro l
  induction l with
  | nil =>
    intro l2 a b hab h
    cases l2 with
    | nil => simpa using hab
    | cons c l2 => simp at h
  | cons x l ih =>
    intro l2 a b hab h
    cases l2 with
    | nil => simp at h
    | cons c l2 =>
      simp only [List.map_cons, List.cons.injEq] at h
      rw [List.getLast_cons (List.cons_ne_nil c l2), List.getLast_cons (List.cons_ne_nil x l)]
      exact ih l2 x c h.1 h.2

end Lemmas

/-! ## The node contract -/

section Contract

variable {X P E : Type}

/-- C1 (merge construction).  For nodes U at `up` and D at `down` with `up`
listed in the upstream of D, if combining the pattern of U with the pattern
of D succeeds with `p`, then the merge constructor returns a node M, leaves
the memory as it was, and M has the sink operation of D and the pattern `p`,
that is `MergePattern` applied to the upstream pattern first and the
downstream pattern second. -/
theorem merge_construction (MergePattern : P → P → Except E P) (m : Memory P)
    (up down : NodePtr) (U D : PatternNode P) (p : P)
    (hU : m.deref up = some U) (hD : m.deref down = some D)
    (_hadj : up ∈ D.upstream_)
    (hcomb : MergePattern U.stmt_pattern_ D.stmt_pattern_ = .ok p) :
    ∃ M : PatternNode P,
      PatternNode.ofNodes MergePattern U D = .ok M ∧
      PatternNode.construct MergePattern m up down = some (.ok M, m) ∧
      M.sink_op_ = D.sink_op_ ∧ M.stmt_pattern_ = p := by
  refine ⟨_, ofNodes_of_ok MergePattern U D p hcomb, ?_, rfl, rfl⟩
  rw [construct_of_deref MergePattern m up down U D hU hD,
    ofNodes_of_ok MergePattern U D p hcomb]

/-- Witness of C1 on the sample chain: merging the node of A (address 1) into
the node of B (address 2), whose upstream lists address 1. -/
theorem merge_construction_witness :
    Sample.memory.deref 1 = some Sample.nodeA ∧
    Sample.memory.deref 2 = some Sample.nodeB ∧
    1 ∈ Sample.nodeB.upstream_ ∧
    Sample.combine Sample.nodeA.stmt_pattern_ Sample.nodeB.stmt_pattern_ = .ok 2 ∧
    ∃ M : PatternNode Nat,
      PatternNode.ofNodes Sample.combine Sample.nodeA Sample.nodeB = .ok M ∧
      PatternNode.construct Sample.combine Sample.memory 1 2 = some (.ok M, Sample.memory) ∧
      M.sink_op_ = Sample.nodeB.sink_op_ ∧ M.stmt_pattern_ = 2 :=
  ⟨rfl, rfl, by decide, rfl,
    merge_construction Sample.combine Sample.memory 1 2 Sample.nodeA Sample.nodeB 2
      rfl rfl (by decide) rfl⟩

/-- C2 (leaf construction).  For every content whose operation is O and that
the classification accepts with pattern `p`, the leaf constructor returns a
node N with sink operation O and pattern `p`. -/
theorem leaf_construction (ConvertToStmtPattern : PatternContent X → Except E P)
    (content : PatternContent X) (p : P)
    (hcls : ConvertToStmtPattern content = .ok p) :
    ∃ N : PatternNode P,
      PatternNode.ofContent ConvertToStmtPattern content = .ok N ∧
      N.sink_op_ = content.op ∧ N.stmt_pattern_ = p :=
  ⟨_, ofContent_of_ok ConvertToStmtPattern content p hcls, rfl, rfl⟩

/-- Witness of C2: the leaf node of the sample operation A. -/
theorem leaf_construction_witness :
    Sample.classify Sample.opA = .ok 1 ∧
    ∃ N : PatternNode Nat,
      PatternNode.ofContent Sample.classify Sample.opA = .ok N ∧
      N.sink_op_ = Sample.opA.op ∧ N.stmt_pattern_ = 1 :=
  ⟨rfl, leaf_construction Sample.classify Sample.opA 1 rfl⟩

/-- C3, as stated, fails on the code: the nodes of A (address 1) and C
(address 3) of the sample chain have no edge between them, yet the merge
constructor returns a node for them instead of failing. -/
theorem nonadjacent_merge_counterexample :
    Sample.memory.deref 1 = some Sample.nodeA ∧
    Sample.memory.deref 3 = some Sample.nodeC ∧
    1 ∉ Sample.nodeC.upstream_ ∧ 3 ∉ Sample.nodeA.downstream_ ∧
    3 ∉ Sample.nodeA.upstream_ ∧ 1 ∉ Sample.nodeC.downstream_ ∧
    PatternNode.construct Sample.combine Sample.memory 1 3
      = some (.ok { stmt_pattern_ := 2, sink_op_ := 30, upstream_ := [], downstream_ := [] },
              Sample.memory) :=
  ⟨rfl, rfl, by decide, by decide, by decide, by decide, rfl⟩

/-- C3 (amended).  For nodes U and D with no edge between them the merge
constructor makes no adjacency check: the attempt has an outcome `r` that is
a failure exactly when combining the two patterns fails, with the same error,
and is the merged node (sink of D, combined pattern) when combining succeeds;
either way the memory after the attempt is the memory before, so U and D
have the pattern, sink operation, upstream list and downstream list they had. -/
theorem nonadjacent_merge_unchecked (MergePattern : P → P → Except E P) (m : Memory P)
    (up down : NodePtr) (U D : PatternNode P)
    (hU : m.deref up = some U) (hD : m.deref down = some D)
    (_hnu : up ∉ D.upstream_) (_hnd : down ∉ U.downstream_) :
    ∃ (r : Except E (PatternNode P)) (after : Memory P),
      PatternNode.construct MergePattern m up down = some (r, after) ∧
      (∀ e, r = .error e ↔ MergePattern U.stmt_pattern_ D.stmt_pattern_ = .error e) ∧
      (∀ M, r = .ok M ↔ ∃ q, MergePattern U.stmt_pattern_ D.stmt_pattern_ = .ok q ∧
          M = { stmt_pattern_ := q, sink_op_ := D.sink_op_,
                upstream_ := [], downstream_ := [] }) ∧
      after = m ∧ after.deref up = some U ∧ after.deref down = some D := by
  refine ⟨_, m, construct_of_deref MergePattern m up down U D hU hD, ?_, ?_, rfl, hU, hD⟩
  · intro e
    cases hc : MergePattern U.stmt_pattern_ D.stmt_pattern_ <;>
      simp [PatternNode.ofNodes, hc]
  · intro M
    cases hc : MergePattern U.stmt_pattern_ D.stmt_pattern_ <;>
      simp [PatternNode.ofNodes, hc, eq_comm]

/-- Witness of the amended C3: the non-adjacent nodes of A and C of the sample
chain. -/
theorem nonadjacent_merge_unchecked_witness :
    Sample.memory.deref 1 = some Sample.nodeA ∧
    Sample.memory.deref 3 = some Sample.nodeC ∧
    1 ∉ Sample.nodeC.upstream_ ∧ 3 ∉ Sample.nodeA.downstream_ ∧
    ∃ (r : Except Nat (PatternNode Nat)) (after : Memory Nat),
      PatternNode.construct Sample.combine Sample.memory 1 3 = some (r, after) ∧
      (∀ e, r = .error e ↔
        Sample.combine Sample.nodeA.stmt_pattern_ Sample.nodeC.stmt_pattern_ = .error e) ∧
      (∀ M, r = .ok M ↔
        ∃ q, Sample.combine Sample.nodeA.stmt_pattern_ Sample.nodeC.stmt_pattern_ = .ok q ∧
          M = { stmt_pattern_ := q, sink_op_ := Sample.nodeC.sink_op_,
                upstream_ := [], downstream_ := [] }) ∧
      after = Sample.memory ∧ after.deref 1 = some Sample.nodeA ∧
      after.deref 3 = some Sample.nodeC :=
  ⟨rfl, rfl, by decide, by decide,
    nonadjacent_merge_unchecked Sample.combine Sample.memory 1 3 Sample.nodeA Sample.nodeC
      rfl rfl (by decide) (by decide)⟩

/-- C4 (merge propagates combine failures).  For all nodes U and D the merge
constructor fails with error `e` exactly when combining the pattern of U with
the pattern of D fails with `e`, so it fails if and only if the combination
fails; and it returns a node exactly when the combination succeeds, so a
failure of the combination is never swallowed and never yields a node. -/
theorem merge_propagates_combine_failure (MergePattern : P → P → Except E P)
    (U D : PatternNode P) :
    (∀ e, PatternNode.ofNodes MergePattern U D = .error e ↔
        MergePattern U.stmt_pattern_ D.stmt_pattern_ = .error e) ∧
    ((∃ e, PatternNode.ofNodes MergePattern U D = .error e) ↔
        ∃ e, MergePattern U.stmt_pattern_ D.stmt_pattern_ = .error e) ∧
    ((∃ M, PatternNode.ofNodes MergePattern U D = .ok M) ↔
        ∃ q, MergePattern U.stmt_pattern_ D.stmt_pattern_ = .ok q) := by
  cases hc : MergePattern U.stmt_pattern_ D.stmt_pattern_ <;>
    simp [PatternNode.ofNodes, hc]

/-- C5 (strong failure safety of merge).  For nodes U and D, if the merge
construction fails, the memory after the attempt is the memory before it: U
and D have the same pattern, sink operation, upstream list and downstream
list, and every address holds what it held, so no edge list of any other
node changed. -/
theorem failed_merge_changes_nothing (MergePattern : P → P → Except E P)
    (m after : Memory P) (up down : NodePtr) (U D : PatternNode P) (e : E)
    (hU : m.deref up = some U) (hD : m.deref down = some D)
    (hfail : PatternNode.construct MergePattern m up down = some (.error e, after)) :
    after.deref up = some U ∧ after.deref down = some D ∧
    (∀ a, after.deref a = m.deref a) ∧ after = m := by
  rw [construct_of_deref MergePattern m up down U D hU hD] at hfail
  have hm : m = after := by
    have := Option.some.inj hfail
    exact congrArg Prod.snd this
  subst hm
  exact ⟨hU, hD, fun _ => rfl, rfl⟩

/-- Witness of C5: merging the big node (address 4) with the node of A
(address 1) of the sample chain conflicts, and the memory is as before. -/
theorem failed_merge_changes_nothing_witness :
    Sample.memory.deref 4 = some Sample.nodeBig ∧
    Sample.memory.deref 1 = some Sample.nodeA ∧
    PatternNode.construct Sample.combine Sample.memory 4 1
      = some (.error 1, Sample.memory) ∧
    Sample.memory.deref 4 = some Sample.nodeBig ∧
    Sample.memory.deref 1 = some Sample.nodeA ∧
    (∀ a, Sample.memory.deref a = Sample.memory.deref a) ∧ Sample.memory = Sample.memory :=
  ⟨rfl, rfl, rfl,
    failed_merge_changes_nothing Sample.combine Sample.memory Sample.memory 4 1
      Sample.nodeBig Sample.nodeA 1 rfl rfl rfl⟩

/-- C6 (sink selection is associative).  For nodes U, D, E such that the four
combinations involved succeed, merging U with D and the result with E, and
merging U with the result of merging D with E, both return a node, the two
nodes have the same sink operation, and it is the sink operation of E. -/
theorem sink_selection_associative {P Err : Type} (MergePattern : P → P → Except Err P)
    (U D E : PatternNode P) (pUD pL pDE pR : P)
    (hUD : MergePattern U.stmt_pattern_ D.stmt_pattern_ = .ok pUD)
    (hL : MergePattern pUD E.stmt_pattern_ = .ok pL)
    (hDE : MergePattern D.stmt_pattern_ E.stmt_pattern_ = .ok pDE)
    (hR : MergePattern U.stmt_pattern_ pDE = .ok pR) :
    ∃ UD L DE R : PatternNode P,
      PatternNode.ofNodes MergePattern U D = .ok UD ∧
      PatternNode.ofNodes MergePattern UD E = .ok L ∧
      PatternNode.ofNodes MergePattern D E = .ok DE ∧
      PatternNode.ofNodes MergePattern U DE = .ok R ∧
      L.sink_op_ = R.sink_op_ ∧ L.sink_op_ = E.sink_op_ ∧ R.sink_op_ = E.sink_op_ :=
  ⟨_, _, _, _, ofNodes_of_ok MergePattern U D pUD hUD,
    ofNodes_of_ok MergePattern _ E pL hL,
    ofNodes_of_ok MergePattern D E pDE hDE,
    ofNodes_of_ok MergePattern U _ pR hR, rfl, rfl, rfl⟩

/-- Witness of C6 on the sample chain A, B, C. -/
theorem sink_selection_associative_witness :
    Sample.combine Sample.nodeA.stmt_pattern_ Sample.nodeB.stmt_pattern_ = .ok 2 ∧
    Sample.combine 2 Sample.nodeC.stmt_pattern_ = .ok 3 ∧
    Sample.combine Sample.nodeB.stmt_pattern_ Sample.nodeC.stmt_pattern_ = .ok 2 ∧
    Sample.combine Sample.nodeA.stmt_pattern_ 2 = .ok 3 ∧
    ∃ UD L DE R : PatternNode Nat,
      PatternNode.ofNodes Sample.combine Sample.nodeA Sample.nodeB = .ok UD ∧
      PatternNode.ofNodes Sample.combine UD Sample.nodeC = .ok L ∧
      PatternNode.ofNodes Sample.combine Sample.nodeB Sample.nodeC = .ok DE ∧
      PatternNode.ofNodes Sample.combine Sample.nodeA DE = .ok R ∧
      L.sink_op_ = R.sink_op_ ∧ L.sink_op_ = Sample.nodeC.sink_op_ ∧
      R.sink_op_ = Sample.nodeC.sink_op_ :=
  ⟨rfl, rfl, rfl, rfl,
    sink_selection_associative Sample.combine Sample.nodeA Sample.nodeB Sample.nodeC
      2 3 2 3 rfl rfl rfl rfl⟩

/-- C7 (freshly constructed nodes have no edges).  Whenever the leaf
constructor returns a node (the classification succeeds) and whenever the
merge constructor returns a node (the combination succeeds), the node has
an empty upstream list and an empty downstream list, whatever the edge lists
of the two merged nodes are. -/
theorem fresh_nodes_have_no_edges (ConvertToStmtPattern : PatternContent X → Except E P)
    (MergePattern : P → P → Except E P)
    (content : PatternContent X) (p : P) (U D : PatternNode P) (q : P)
    (hcls : ConvertToStmtPattern content = .ok p)
    (hcomb : MergePattern U.stmt_pattern_ D.stmt_pattern_ = .ok q) :
    (∃ N : PatternNode P, PatternNode.ofContent ConvertToStmtPattern content = .ok N ∧
        N.upstream_ = [] ∧ N.downstream_ = []) ∧
    (∃ M : PatternNode P, PatternNode.ofNodes MergePattern U D = .ok M ∧
        M.upstream_ = [] ∧ M.downstream_ = []) :=
  ⟨⟨_, ofContent_of_ok ConvertToStmtPattern content p hcls, rfl, rfl⟩,
    ⟨_, ofNodes_of_ok MergePattern U D q hcomb, rfl, rfl⟩⟩

/-- Witness of C7: the leaf of the sample operation A, and the merge of the
nodes of A and B, both of which have neighbours. -/
theorem fresh_nodes_have_no_edges_witness :
    Sample.classify Sample.opA = .ok 1 ∧
    Sample.combine Sample.nodeA.stmt_pattern_ Sample.nodeB.stmt_pattern_ = .ok 2 ∧
    Sample.nodeA.downstream_ = [2] ∧ Sample.nodeB.upstream_ = [1] ∧
    Sample.nodeB.downstream_ = [3] ∧
    (∃ N : PatternNode Nat, PatternNode.ofContent Sample.classify Sample.opA = .ok N ∧
        N.upstream_ = [] ∧ N.downstream_ = []) ∧
    (∃ M : PatternNode Nat, PatternNode.ofNodes Sample.combine Sample.nodeA Sample.nodeB = .ok M ∧
        M.upstream_ = [] ∧ M.downstream_ = []) :=
  ⟨rfl, rfl, rfl, rfl, rfl,
    fresh_nodes_have_no_edges Sample.classify Sample.combine Sample.opA 1
      Sample.nodeA Sample.nodeB 2 rfl rfl⟩

/-- C8 (chain scenario).  General part: for every non-empty sequence of
contents `first :: others` that the classification accepts, with patterns
`p :: ps`, such that the left fold of combine over `p :: ps` succeeds with
`q`, building the leaf nodes and merging them left to right returns a node
whose sink operation is the operation of the last content and whose pattern
is `q`; this holds for chains of every length, a single content included.
Instance, under its own conditions only: for three accepted contents A, B, C
such that combining the patterns of A and B, and the result with the pattern
of C, succeeds, the leaf nodes exist, the merge of the nodes of A and B has
the sink of B and the pattern combine (classify A) (classify B), and merging
that node with the node of C returns a node with the sink of C. -/
theorem chain_scenario (ConvertToStmtPattern : PatternContent X → Except E P)
    (MergePattern : P → P → Except E P) :
    (∀ (first : PatternContent X) (others : List (PatternContent X))
        (p : P) (ps : List P) (q : P),
      ConvertToStmtPattern first = .ok p →
      List.Forall₂ (fun c r => ConvertToStmtPattern c = .ok r) others ps →
      combineLeft MergePattern p ps = .ok q →
      ∃ M : PatternNode P,
        fuseChain ConvertToStmtPattern MergePattern first others = .ok M ∧
        M.sink_op_ = ((first :: others).getLast (List.cons_ne_nil first others)).op ∧
        M.stmt_pattern_ = q) ∧
    (∀ (A B C : PatternContent X) (pA pB pC pAB pABC : P),
      ConvertToStmtPattern A = .ok pA → ConvertToStmtPattern B = .ok pB →
      ConvertToStmtPattern C = .ok pC →
      MergePattern pA pB = .ok pAB → MergePattern pAB pC = .ok pABC →
      ∃ NA NB NC NAB NABC : PatternNode P,
        PatternNode.ofContent ConvertToStmtPattern A = .ok NA ∧
        PatternNode.ofContent ConvertToStmtPattern B = .ok NB ∧
        PatternNode.ofContent ConvertToStmtPattern C = .ok NC ∧
        PatternNode.ofNodes MergePattern NA NB = .ok NAB ∧
        NAB.sink_op_ = B.op ∧ NAB.sink_op_ = NB.sink_op_ ∧ NAB.stmt_pattern_ = pAB ∧
        PatternNode.ofNodes MergePattern NAB NC = .ok NABC ∧
        NABC.sink_op_ = C.op ∧
        fuseChain ConvertToStmtPattern MergePattern A [B] = .ok NAB ∧
        fuseChain ConvertToStmtPattern MergePattern A [B, C] = .ok NABC) := by
  constructor
  · intro first others p ps q hfirst hothers hfold
    obtain ⟨ns, hns, hpat, hsink⟩ := buildLeaves_of_ok ConvertToStmtPattern others ps hothers
    obtain ⟨M, hM, hp, hs⟩ := mergeLeftToRight_of_ok MergePattern ns
      { stmt_pattern_ := p, sink_op_ := first.op, upstream_ := [], downstream_ := [] } q
      (by rw [hpat]; exact hfold)
    refine ⟨M, ?_, ?_, hp⟩
    · simp only [fuseChain, ofContent_of_ok ConvertToStmtPattern first p hfirst, hns]
      exact hM
    · rw [hs]
      exact getLast_map_cons PatternNode.sink_op_ PatternContent.op others ns first _ rfl hsink
  · intro A B C pA pB pC pAB pABC hA hB hC hAB hABC
    have hNA := ofContent_of_ok ConvertToStmtPattern A pA hA
    have hNB := ofContent_of_ok ConvertToStmtPattern B pB hB
    have hNC := ofContent_of_ok ConvertToStmtPattern C pC hC
    refine ⟨_, _, _, _, _, hNA, hNB, hNC,
      ofNodes_of_ok MergePattern _ _ pAB hAB, rfl, rfl, rfl,
      ofNodes_of_ok MergePattern _ _ pABC hABC, rfl, ?_, ?_⟩
    · simp [fuseChain, buildLeaves, mergeLeftToRight, PatternNode.ofNodes, hNA, hNB, hAB]
    · simp [fuseChain, buildLeaves, mergeLeftToRight, PatternNode.ofNodes, hNA, hNB, hNC,
        hAB, hABC]

/-- Witness of C8.  The general part at chains of length 1, 2 and 3 (A alone;
A, B; A, B, C) of the sample operations, and the instance at A, B, C. -/
theorem chain_scenario_witness :
    (Sample.classify Sample.opA = .ok 1 ∧
      List.Forall₂ (fun c r => Sample.classify c = .ok r) [] [] ∧
      combineLeft Sample.combine 1 [] = .ok 1 ∧
      ∃ M : PatternNode Nat,
        fuseChain Sample.classify Sample.combine Sample.opA [] = .ok M ∧
        M.sink_op_ = ([Sample.opA].getLast (List.cons_ne_nil Sample.opA [])).op ∧
        M.stmt_pattern_ = 1) ∧
    (List.Forall₂ (fun c r => Sample.classify c = .ok r) [Sample.opB] [1] ∧
      combineLeft Sample.combine 1 [1] = .ok 2 ∧
      ∃ M : PatternNode Nat,
        fuseChain Sample.classify Sample.combine Sample.opA [Sample.opB] = .ok M ∧
        M.sink_op_ = ([Sample.opA, Sample.opB].getLast
          (List.cons_ne_nil Sample.opA [Sample.opB])).op ∧
        M.stmt_pattern_ = 2) ∧
    (List.Forall₂ (fun c r => Sample.classify c = .ok r) [Sample.opB, Sample.opC] [1, 1] ∧
      combineLeft Sample.combine 1 [1, 1] = .ok 3 ∧
      ∃ M : PatternNode Nat,
        fuseChain Sample.classify Sample.combine Sample.opA [Sample.opB, Sample.opC] = .ok M ∧
        M.sink_op_ = ([Sample.opA, Sample.opB, Sample.opC].getLast
          (List.cons_ne_nil Sample.opA [Sample.opB, Sample.opC])).op ∧
        M.stmt_pattern_ = 3) ∧
    (Sample.classify Sample.opB = .ok 1 ∧ Sample.classify Sample.opC = .ok 1 ∧
      Sample.combine 1 1 = .ok 2 ∧ Sample.combine 2 1 = .ok 3 ∧
      ∃ NA NB NC NAB NABC : PatternNode Nat,
        PatternNode.ofContent Sample.classify Sample.opA = .ok NA ∧
        PatternNode.ofContent Sample.classify Sample.opB = .ok NB ∧
        PatternNode.ofContent Sample.classify Sample.opC = .ok NC ∧
        PatternNode.ofNodes Sample.combine NA NB = .ok NAB ∧
        NAB.sink_op_ = Sample.opB.op ∧ NAB.sink_op_ = NB.sink_op_ ∧ NAB.stmt_pattern_ = 2 ∧
        PatternNode.ofNodes Sample.combine NAB NC = .ok NABC ∧
        NABC.sink_op_ = Sample.opC.op ∧
        fuseChain Sample.classify Sample.combine Sample.opA [Sample.opB] = .ok NAB ∧
        fuseChain Sample.classify Sample.combine Sample.opA [Sample.opB, Sample.opC]
          = .ok NABC) :=
  have h1 : List.Forall₂ (fun c r => Sample.classify c = .ok r) [Sample.opB] [1] :=
    List.Forall₂.cons rfl List.Forall₂.nil
  have h2 : List.Forall₂ (fun c r => Sample.classify c = .ok r)
      [Sample.opB, Sample.opC] [1, 1] :=
    List.Forall₂.cons rfl (List.Forall₂.cons rfl List.Forall₂.nil)
  ⟨⟨rfl, List.Forall₂.nil, rfl,
      (chain_scenario Sample.classify Sample.combine).1 Sample.opA [] 1 [] 1
        rfl List.Forall₂.nil rfl⟩,
    ⟨h1, rfl,
      (chain_scenario Sample.classify Sample.combine).1 Sample.opA [Sample.opB] 1 [1] 2
        rfl h1 rfl⟩,
    ⟨h2, rfl,
      (chain_scenario Sample.classify Sample.combine).1 Sample.opA [Sample.opB, Sample.opC]
        1 [1, 1] 3 rfl h2 rfl⟩,
    ⟨rfl, rfl, rfl, rfl,
      (chain_scenario Sample.classify Sample.combine).2 Sample.opA Sample.opB Sample.opC
        1 1 1 2 3 rfl rfl rfl rfl rfl⟩⟩

/-- C9 (leaf construction propagates classification failures).  For every
content the leaf constructor fails with error `e` exactly when the
classification of the content fails with `e`, so it fails if and only if the
classification fails; and it returns a node exactly when the classification
succeeds, so a classification failure is never ignored and never yields a
node. -/
theorem leaf_propagates_classify_failure
    (ConvertToStmtPattern : PatternContent X → Except E P) (content : PatternContent X) :
    (∀ e, PatternNode.ofContent ConvertToStmtPattern content
          = (.error e : Except E (PatternNode P)) ↔
        ConvertToStmtPattern content = .error e) ∧
    ((∃ e, PatternNode.ofContent ConvertToStmtPattern content
          = (.error e : Except E (PatternNode P))) ↔
        ∃ e, ConvertToStmtPattern content = .error e) ∧
    ((∃ N, PatternNode.ofContent ConvertToStmtPattern content = .ok N) ↔
        ∃ p, ConvertToStmtPattern content = .ok p) := by
  cases hc : ConvertToStmtPattern content <;>
    simp [PatternNode.ofContent, hc]

/-- C10 (debug representation).  The text of `DebugStr` is "Node: " and the
identity token of the node, ", Pattern: " and the name of its pattern kind,
then a line "    -u>:  " with the token of every upstream neighbour in list
order, each followed by ", ", then a line "    <d-:  " with the token of
every downstream neighbour in list order, each followed by ", ".  Hence it
depends on those tokens and that name only: two nodes that agree on them
have the same text, whatever else differs, and the text of an unmodified
node is the same at every call. -/
theorem debug_str_deterministic_complete (GetPatternName : P → String)
    (showPtr : NodePtr → String) (self other : NodePtr) (node node2 : PatternNode P)
    (hid : showPtr self = showPtr other)
    (hname : GetPatternName node.stmt_pattern_ = GetPatternName node2.stmt_pattern_)
    (hup : node.upstream_.map showPtr = node2.upstream_.map showPtr)
    (hdown : node.downstream_.map showPtr = node2.downstream_.map showPtr) :
    PatternNode.DebugStr GetPatternName showPtr self node
      = debugText (showPtr self) (GetPatternName node.stmt_pattern_)
          (node.upstream_.map showPtr) (node.downstream_.map showPtr) ∧
    PatternNode.DebugStr GetPatternName showPtr self node
      = PatternNode.DebugStr GetPatternName showPtr other node2 := by
  have key : ∀ (a : NodePtr) (n : PatternNode P),
      PatternNode.DebugStr GetPatternName showPtr a n
        = debugText (showPtr a) (GetPatternName n.stmt_pattern_)
            (n.upstream_.map showPtr) (n.downstream_.map showPtr) := by
    intro a n
    simp only [PatternNode.DebugStr, debugText, foldl_append_tokens]
    simp only [String.append_assoc, String.empty_append]
  exact ⟨key self node, by rw [key self node, key other node2, hid, hname, hup, hdown]⟩

/-- Witness of C10: the node of B of the sample chain at address 2, compared
with a node that differs from it in its sink operation only. -/
theorem debug_str_deterministic_complete_witness :
    Sample.showPtr 2 = Sample.showPtr 2 ∧
    Sample.patternName Sample.nodeB.stmt_pattern_
      = Sample.patternName Sample.nodeWithOtherSink.stmt_pattern_ ∧
    Sample.nodeB.upstream_.map Sample.showPtr
      = Sample.nodeWithOtherSink.upstream_.map Sample.showPtr ∧
    Sample.nodeB.downstream_.map Sample.showPtr
      = Sample.nodeWithOtherSink.downstream_.map Sample.showPtr ∧
    Sample.nodeB ≠ Sample.nodeWithOtherSink ∧
    PatternNode.DebugStr Sample.patternName Sample.showPtr 2 Sample.nodeB
      = "Node: 0x2, Pattern: Trivial\n    -u>:  0x1, \n    <d-:  0x3, " ∧
    PatternNode.DebugStr Sample.patternName Sample.showPtr 2 Sample.nodeB
      = debugText (Sample.showPtr 2) (Sample.patternName Sample.nodeB.stmt_pattern_)
          (Sample.nodeB.upstream_.map Sample.showPtr)
          (Sample.nodeB.downstream_.map Sample.showPtr) ∧
    PatternNode.DebugStr Sample.patternName Sample.showPtr 2 Sample.nodeB
      = PatternNode.DebugStr Sample.patternName Sample.showPtr 2 Sample.nodeWithOtherSink :=
  ⟨rfl, rfl, rfl, rfl, by decide, by decide,
    debug_str_deterministic_complete Sample.patternName Sample.showPtr 2 2
      Sample.nodeB Sample.nodeWithOtherSink rfl rfl rfl rfl⟩

end Contract

end cinn.fusion
